import Mathlib

/-!
Shallow embedding of the daystats fetch-and-filter pipeline
(src/daystats/daystats.py) and proofs about it.

Modelling conventions:
* Python naive `datetime.datetime` objects are the `DateTime` structure below;
  comparison between them is field-lexicographic, exactly as CPython compares
  the packed fields of naive datetimes.
* `datetime.datetime.now()` is an explicit `now : DateTime` parameter.
* The machine timezone constant `UTC_OFFSET = timedelta(hours=OFFSET // 60 // 60)`
  is an explicit `offH : Int` parameter (whole hours), and Python
  `dt + timedelta(hours=h)` is `addHours dt h`, implemented with the same
  proleptic-Gregorian ordinal arithmetic CPython uses.
* `client.post` for the single contributions request is a function from the
  query variables to the parsed response; a response that lacks the top-level
  "data" key is `none`, a well-formed one is `some` of the extracted
  `contributionsCollection` payload.
* The paged pull-request transport is the stream of page responses the server
  returns, in order: `List (Option PRPage)`, where again `none` is a response
  lacking "data".  The opaque cursor only feeds the next request and is kept
  as a field of the page for fidelity.
* `node["createdAt"]` arrives as an ISO-8601 string with trailing "Z" and is
  parsed with `fromisoformat(s.rstrip("Z"))`; on the wire format this parse is
  injective, so nodes carry the parsed `DateTime` directly and the produced
  record stores the same instant.
-/

namespace Daystats

/-- Naive date-time with the seven fields of a Python `datetime.datetime`. -/
structure DateTime where
  year : Nat
  month : Nat
  day : Nat
  hour : Nat
  minute : Nat
  second : Nat
  microsecond : Nat
  deriving DecidableEq, Repr

/-- Python's leap-year rule (`calendar.isleap`). -/
def isLeap (y : Nat) : Bool :=
  y % 4 == 0 && (y % 100 != 0 || y % 400 == 0)

/-- Days in a month of a given year, as CPython's `_days_in_month`. -/
def daysInMonth (y m : Nat) : Nat :=
  if m = 2 then (if isLeap y then 29 else 28)
  else if m = 4 || m = 6 || m = 9 || m = 11 then 30
  else 31

/-- The bounds `datetime.datetime.__new__` validates: MINYEAR..MAXYEAR for the
year, 1..12 for the month, 1..days-in-month for the day, and the usual ranges
for the time fields. -/
def isValidDateTime (d : DateTime) : Bool :=
  1 ≤ d.year && d.year ≤ 9999 &&
  1 ≤ d.month && d.month ≤ 12 &&
  1 ≤ d.day && d.day ≤ daysInMonth d.year d.month &&
  d.hour ≤ 23 && d.minute ≤ 59 && d.second ≤ 59 && d.microsecond ≤ 999999

/-- Validity of just a calendar date (year, month, day). -/
def isValidDate (y m d : Nat) : Bool :=
  1 ≤ y && y ≤ 9999 && 1 ≤ m && m ≤ 12 && 1 ≤ d && d ≤ daysInMonth y m

/-- The single hard error of the pipeline: Python's `ValueError` raised by
datetime construction/replacement, called `InvalidDateError` in the design. -/
inductive InvalidDateError where
  | invalidDate : InvalidDateError
  deriving DecidableEq, Repr

/-- Construct a datetime, validating like `datetime.replace` does (it builds a
new object through the validating constructor). -/
def tryMk (d : DateTime) : Except InvalidDateError DateTime :=
  if isValidDateTime d then .ok d else .error .invalidDate

/-- Python chained comparison `a < b` on naive datetimes: lexicographic on the
seven fields. -/
def dtLt (a b : DateTime) : Bool :=
  if a.year ≠ b.year then decide (a.year < b.year)
  else if a.month ≠ b.month then decide (a.month < b.month)
  else if a.day ≠ b.day then decide (a.day < b.day)
  else if a.hour ≠ b.hour then decide (a.hour < b.hour)
  else if a.minute ≠ b.minute then decide (a.minute < b.minute)
  else if a.second ≠ b.second then decide (a.second < b.second)
  else decide (a.microsecond < b.microsecond)

/-- Left-pad a decimal rendering with zeros, as `%02d`-style formatting. -/
def padNum (width n : Nat) : String :=
  let s := toString n
  String.mk (List.replicate (width - s.length) '0') ++ s

/-- Python `datetime.isoformat()`: `YYYY-MM-DDTHH:MM:SS` with `.ffffff`
appended only when the microsecond field is nonzero. -/
def DateTime.isoformat (d : DateTime) : String :=
  let base := padNum 4 d.year ++ "-" ++ padNum 2 d.month ++ "-" ++ padNum 2 d.day ++
    "T" ++ padNum 2 d.hour ++ ":" ++ padNum 2 d.minute ++ ":" ++ padNum 2 d.second
  if d.microsecond = 0 then base else base ++ "." ++ padNum 6 d.microsecond

/-- CPython `_days_before_year`: days before January 1 of the year. -/
def daysBeforeYear (y : Nat) : Nat :=
  (y - 1) * 365 + (y - 1) / 4 - (y - 1) / 100 + (y - 1) / 400

/-- CPython `_days_before_month`: days in the year preceding the month. -/
def daysBeforeMonth (y m : Nat) : Nat :=
  (List.range' 1 (m - 1)).foldl (fun acc mm => acc + daysInMonth y mm) 0

/-- CPython `_ymd2ord`: proleptic-Gregorian ordinal, with 0001-01-01 as day 1. -/
def toOrdinal (d : DateTime) : Nat :=
  daysBeforeYear d.year + daysBeforeMonth d.year d.month + d.day

/-- Turn a day-of-year (1-based) into month and day, scanning the months as
CPython's `_ord2ymd` does; the fuel is the remaining number of months. -/
def monthFromDoy (y : Nat) : Nat → Nat → Nat → Nat × Nat
  | 0, doy, m => (m, doy)
  | fuel + 1, doy, m =>
    if doy ≤ daysInMonth y m then (m, doy)
    else monthFromDoy y fuel (doy - daysInMonth y m) (m + 1)

/-- CPython `_ord2ymd`: year, month, day from a proleptic-Gregorian ordinal. -/
def ord2ymd (n0 : Nat) : Nat × Nat × Nat :=
  let n := n0 - 1
  let n400 := n / 146097
  let r400 := n % 146097
  let n100 := r400 / 36524
  let r100 := r400 % 36524
  let n4 := r100 / 1461
  let r4 := r100 % 1461
  let n1 := r4 / 365
  let r1 := r4 % 365
  let year := n400 * 400 + n100 * 100 + n4 * 4 + n1 + 1
  if n1 = 4 || n100 = 4 then (year - 1, 12, 31)
  else
    let md := monthFromDoy year 11 (r1 + 1) 1
    (year, md.1, md.2)

/-- Python `dt + datetime.timedelta(hours=h)` for a whole number of hours:
convert to seconds on the proleptic-Gregorian timeline, add, convert back.
The microsecond field is untouched by a whole-hour delta. -/
def addHours (d : DateTime) (h : Int) : DateTime :=
  let total : Int := ((toOrdinal d : Int) - 1) * 86400 +
    (d.hour : Int) * 3600 + (d.minute : Int) * 60 + (d.second : Int) + h * 3600
  let days := total.fdiv 86400
  let rem := (total - days * 86400).toNat
  let ymd := ord2ymd (days.toNat + 1)
  ⟨ymd.1, ymd.2.1, ymd.2.2, rem / 3600, (rem % 3600) / 60, rem % 60, d.microsecond⟩

/-- Truthiness of an optional integer argument, as Python `if year:` on a value
of type `int | None`: `None` and `0` are falsy. -/
def truthy : Option Int → Bool
  | none => false
  | some v => v != 0

/-- The integer payload of an optional argument, clamped into `Nat` (a negative
value yields 0, which every field validation rejects, matching Python's
`ValueError` on negative year/month/day). -/
def intVal : Option Int → Nat
  | none => 0
  | some v => v.toNat

/-- Field update used by `now.replace(year=...)` before validation. -/
def withYear (d : DateTime) (y : Nat) : DateTime := { d with year := y }

/-- Field update used by `now.replace(month=...)` before validation. -/
def withMonth (d : DateTime) (m : Nat) : DateTime := { d with month := m }

/-- Field update used by `now.replace(day=...)` before validation. -/
def withDay (d : DateTime) (dd : Nat) : DateTime := { d with day := dd }

/-- `_build_bookend_times(year, month, day)` with `datetime.datetime.now()`
passed explicitly: override the truthy fields one at a time (each `replace`
validating the intermediate date), then build the 00:00:00.000 and 23:59:59.000
bookends of the resulting date. -/
def buildBookendTimes (now : DateTime) (year month day : Option Int) :
    Except InvalidDateError (DateTime × DateTime) :=
  match (if truthy year then tryMk (withYear now (intVal year)) else .ok now) with
  | .error err => .error err
  | .ok n1 =>
    match (if truthy month then tryMk (withMonth n1 (intVal month)) else .ok n1) with
    | .error err => .error err
    | .ok n2 =>
      match (if truthy day then tryMk (withDay n2 (intVal day)) else .ok n2) with
      | .error err => .error err
      | .ok n3 =>
        match tryMk { n3 with hour := 0, minute := 0, second := 0, microsecond := 0 } with
        | .error err => .error err
        | .ok start_dt =>
          match tryMk { n3 with hour := 23, minute := 59, second := 59, microsecond := 0 } with
          | .error err => .error err
          | .ok end_dt => .ok (start_dt, end_dt)

/-- A repository identified by its owner login and name; frozen dataclass with
field-wise (case-sensitive string) equality, hashable into a Python set. -/
structure Repo where
  owner : String
  name : String
  deriving DecidableEq, Repr

/-- The `Contributions` frozen dataclass: four counters plus the set of
repositories with at least one authored pull-request contribution. -/
structure Contributions where
  commits : Nat
  issues : Nat
  pullrequests : Nat
  reviews : Nat
  pr_repos : Finset Repo
  deriving DecidableEq

/-- The `PullRequest` frozen dataclass.  The source stores `created_at` as the
raw ISO string; here it is the (injectively) parsed instant. -/
structure PullRequest where
  reponame : String
  additions : Nat
  deletions : Nat
  files : Nat
  created_at : DateTime
  number : Nat
  url : String
  deriving DecidableEq, Repr

/-- The variables of the contributions GraphQL query built by
`_create_contrib_query` (the query document itself is a fixed constant). -/
structure ContribQuery where
  loginname : String
  from_time : String
  to_time : String
  deriving DecidableEq, Repr

/-- `_create_contrib_query(loginname, from_, to_)`. -/
def createContribQuery (loginname from_ to_ : String) : ContribQuery :=
  ⟨loginname, from_, to_⟩

/-- One `pullRequestContributionsByRepository` entry: the repository's owner
login and name, as navigated by `pr["repository"]["owner"]["login"]` and
`pr["repository"]["name"]`. -/
structure PREntry where
  owner : String
  name : String
  deriving DecidableEq, Repr

/-- `Repo(owner=pr["repository"]["owner"]["login"], name=pr["repository"]["name"])`. -/
def entryRepo (e : PREntry) : Repo := ⟨e.owner, e.name⟩

/-- The `resp_json["data"]["user"]["contributionsCollection"]` payload of a
response that does contain the top-level "data" key. -/
structure ContribData where
  totalCommitContributions : Nat
  totalIssueContributions : Nat
  totalPullRequestContributions : Nat
  totalPullRequestReviewContributions : Nat
  pullRequestContributionsByRepository : List PREntry
  deriving DecidableEq, Repr

/-- `_fetch_contributions(client, loginname, start_dt, end_dt)`: serialize the
window as isoformat with a literal trailing "Z" (local time mislabeled as
UTC), post the query, and on a response missing "data" soft-fail to the zero
summary; otherwise take the counters verbatim and collect the distinct
(owner, name) pairs into a set. -/
def fetchContributions (post : ContribQuery → Option ContribData)
    (loginname : String) (start_dt end_dt : DateTime) : Contributions :=
  let from_ := start_dt.isoformat ++ "Z"
  let to_ := end_dt.isoformat ++ "Z"
  let query := createContribQuery loginname from_ to_
  match post query with
  | none => ⟨0, 0, 0, 0, ∅⟩
  | some contribs =>
    let pr_repos := contribs.pullRequestContributionsByRepository.foldl
      (fun s pr => insert (entryRepo pr) s) ∅
    ⟨contribs.totalCommitContributions,
     contribs.totalIssueContributions,
     contribs.totalPullRequestContributions,
     contribs.totalPullRequestReviewContributions,
     pr_repos⟩

/-- One node of a pull-request page: the author login, the parsed `createdAt`
instant, and the record payload fields. -/
structure Node where
  authorLogin : String
  createdAt : DateTime
  additions : Nat
  deletions : Nat
  changedFiles : Nat
  number : Nat
  url : String
  deriving DecidableEq, Repr

/-- The `resp_json["data"]["repository"]["pullRequests"]` payload of one page
response that does contain "data": the page-info fields the loop reads and the
list of nodes. -/
structure PRPage where
  endCursor : Option String
  hasNextPage : Bool
  nodes : List Node
  deriving DecidableEq, Repr

/-- ASCII lower-casing of one character, as `str.lower()` acts on the ASCII
range (all author logins involved are ASCII). -/
def lowerChar (c : Char) : Char :=
  if 65 ≤ c.toNat && c.toNat ≤ 90 then Char.ofNat (c.toNat + 32) else c

/-- Python `s.lower()` as a character-wise map. -/
def lowerStr (s : String) : String := String.mk (s.data.map lowerChar)

/-- The record appended for an in-window, author-matching node. -/
def toRecord (reponame : String) (n : Node) : PullRequest :=
  ⟨reponame, n.additions, n.deletions, n.changedFiles, n.createdAt, n.number, n.url⟩

/-- The body of the `for node in rjson["nodes"]` loop, acting on the pair of
the continuation flag `more` and the accumulated records `prs`:
skip on author mismatch (case-insensitive); on an out-of-window timestamp set
`more := created_at > start_dt` and skip; otherwise append the record. -/
def processNode (author reponame : String) (start_dt end_dt : DateTime)
    (st : Bool × List PullRequest) (n : Node) : Bool × List PullRequest :=
  if lowerStr n.authorLogin != lowerStr author then st
  else if !(dtLt n.createdAt end_dt && dtLt start_dt n.createdAt) then
    (dtLt start_dt n.createdAt, st.2)
  else (st.1, st.2 ++ [toRecord reponame n])

/-- One iteration of the `while more` loop after a page arrived with "data":
`more` is first set to the server's `hasNextPage`, then the node loop runs. -/
def processPage (author reponame : String) (start_dt end_dt : DateTime)
    (prs : List PullRequest) (page : PRPage) : Bool × List PullRequest :=
  page.nodes.foldl (processNode author reponame start_dt end_dt) (page.hasNextPage, prs)

/-- The `while more` loop of `_fetch_pull_requests` over the stream of page
responses: a response missing "data" returns `[]` at once, discarding `prs`;
otherwise the page is processed and the loop continues iff the resulting
`more` flag is true. -/
def fetchLoop (author reponame : String) (start_dt end_dt : DateTime)
    (prs : List PullRequest) : List (Option PRPage) → List PullRequest
  | [] => prs
  | none :: _ => []
  | some page :: rest =>
    let st := processPage author reponame start_dt end_dt prs page
    if st.1 then fetchLoop author reponame start_dt end_dt st.2 rest else st.2

/-- `_fetch_pull_requests(client, author, repoowner, reponame, start_dt, end_dt)`
with the transport abstracted to the stream of page responses it would return
(`repoowner` only feeds the query variables). -/
def fetchPullRequests (author repoowner reponame : String)
    (start_dt end_dt : DateTime) (resps : List (Option PRPage)) : List PullRequest :=
  fetchLoop author reponame start_dt end_dt [] resps

/-- `get_stats(loginname, year=…, month=…, day=…)` with the external inputs
explicit: `now`, the UTC offset in whole hours, the contributions transport,
the per-repository page streams, and the iteration order the Python set
exhibits (`for repo in contribs.pr_repos`, order unspecified).  Builds the
window once, fetches contributions on the unmodified window, then per
repository extends the flat list with that repository's pull requests fetched
on the offset-corrected window. -/
def getStats (post : ContribQuery → Option ContribData)
    (prResps : Repo → List (Option PRPage)) (repoOrder : Finset Repo → List Repo)
    (loginname : String) (offH : Int)
    (now : DateTime) (year month day : Option Int) :
    Except InvalidDateError (Contributions × List PullRequest) :=
  match buildBookendTimes now year month day with
  | .error err => .error err
  | .ok (start_dt, end_dt) =>
    let contribs := fetchContributions post loginname start_dt end_dt
    let pull_requests := (repoOrder contribs.pr_repos).foldl
      (fun acc repo => acc ++ fetchPullRequests loginname repo.owner repo.name
        (addHours start_dt offH) (addHours end_dt offH) (prResps repo)) []
    .ok (contribs, pull_requests)

/-! ### Spec-side characterizations and fixtures -/

/-- Modelled from the spec: a node that re-evaluates the continuation signal,
i.e. an author-matching node whose timestamp is not strictly inside the
window. -/
def specSignalNode (author : String) (start_dt end_dt : DateTime) (n : Node) : Bool :=
  (lowerStr n.authorLogin == lowerStr author) &&
    !(dtLt n.createdAt end_dt && dtLt start_dt n.createdAt)

/-- Modelled from the spec: the last node of a page that re-evaluates the
continuation signal, if any. -/
def specLastSignalNode (author : String) (start_dt end_dt : DateTime) :
    List Node → Option Node
  | [] => none
  | n :: rest =>
    match specLastSignalNode author start_dt end_dt rest with
    | some x => some x
    | none => if specSignalNode author start_dt end_dt n then some n else none

/-- Fixture window start, matching the repository's test fixture times. -/
def exStart : DateTime := ⟨2023, 8, 31, 19, 0, 0, 0⟩

/-- Fixture window end, matching the repository's test fixture times. -/
def exEnd : DateTime := ⟨2023, 9, 1, 18, 59, 59, 0⟩

/-- Fixture node strictly inside the window, authored with an upper-case P. -/
def exNodeIn : Node :=
  ⟨"Preocts", ⟨2023, 9, 1, 4, 51, 4, 0⟩, 47, 286, 10, 5,
   "https://github.com/Preocts/daystats/pull/5"⟩

/-- Fixture node older than the window start. -/
def exNodeOld : Node := ⟨"preocts", ⟨2023, 8, 1, 0, 0, 0, 0⟩, 1, 2, 3, 2, "u2"⟩

/-- Fixture node newer than the window end. -/
def exNodeNew : Node := ⟨"preocts", ⟨2023, 9, 5, 0, 0, 0, 0⟩, 1, 2, 3, 9, "u9"⟩

/-- Fixture node by a different author, inside the window. -/
def exNodeOther : Node := ⟨"otheruser", ⟨2023, 9, 1, 5, 0, 0, 0⟩, 4, 5, 6, 7, "u7"⟩

/-! ### Helper lemmas -/

theorem tryMk_ok_of_valid (d : DateTime) (h : isValidDateTime d = true) :
    tryMk d = .ok d := by
  simp [tryMk, h]

theorem tryMk_eq_ok (d x : DateTime) (h : tryMk d = .ok x) :
    x = d ∧ isValidDateTime d = true := by
  unfold tryMk at h
  by_cases hv : isValidDateTime d = true
  · simp [hv] at h; exact ⟨h.symm, hv⟩
  · simp [hv] at h

theorem isValidDate_of_isValidDateTime (d : DateTime) (h : isValidDateTime d = true) :
    isValidDate d.year d.month d.day = true := by
  simp only [isValidDateTime, Bool.and_eq_true, decide_eq_true_eq] at h
  simp only [isValidDate, Bool.and_eq_true, decide_eq_true_eq]
  tauto

theorem isValidDateTime_setTime (d : DateTime) (hr mi sec : Nat)
    (hhr : hr ≤ 23) (hmi : mi ≤ 59) (hsec : sec ≤ 59)
    (h : isValidDateTime d = true) :
    isValidDateTime { d with hour := hr, minute := mi, second := sec, microsecond := 0 } = true := by
  simp only [isValidDateTime, Bool.and_eq_true, decide_eq_true_eq] at h ⊢
  omega

/-! ### C10 -/

/-- C10: passing 0 for year, month or day to the Window Builder behaves exactly
as leaving the field unspecified, because the override check tests truthiness
(`if year:`), not presence. -/
theorem buildBookendTimes_zero_is_unspecified :
    ∀ (now : DateTime) (y m d : Option Int),
      buildBookendTimes now (some 0) m d = buildBookendTimes now none m d ∧
      buildBookendTimes now y (some 0) d = buildBookendTimes now y none d ∧
      buildBookendTimes now y m (some 0) = buildBookendTimes now y m none := by
  intro now y m d
  exact ⟨rfl, rfl, rfl⟩

/-! ### C6 -/

/-- C6: on a contributions response that lacks the top-level data field, the
Contribution Fetcher returns the zero summary with an empty repository set,
and no exception is involved (the function is total). -/
theorem fetchContributions_missing_data :
    ∀ (post : ContribQuery → Option ContribData) (login : String) (s e : DateTime),
      post (createContribQuery login (s.isoformat ++ "Z") (e.isoformat ++ "Z")) = none →
      fetchContributions post login s e =
        { commits := 0, issues := 0, pullrequests := 0, reviews := 0, pr_repos := ∅ } := by
  intro post login s e h
  simp [fetchContributions, h]

/-- Witness for C6 at a concrete client that answers without a data field. -/
theorem fetchContributions_missing_data_witness :
    fetchContributions (fun _ => none) "preocts" exStart exEnd =
      { commits := 0, issues := 0, pullrequests := 0, reviews := 0, pr_repos := ∅ } :=
  fetchContributions_missing_data (fun _ => none) "preocts" exStart exEnd rfl

/-! ### C5 -/

/-- C5: a pull-request page response lacking the data field makes the fetch
return the empty list immediately, discarding every record accumulated from
earlier pages of the same call. -/
theorem fetchPullRequests_no_partial_results :
    ∀ (author repoowner reponame : String) (start_dt end_dt : DateTime)
      (prs : List PullRequest) (rest : List (Option PRPage)) (page : PRPage),
      fetchLoop author reponame start_dt end_dt prs (none :: rest) = [] ∧
      ((processPage author reponame start_dt end_dt [] page).1 = true →
        fetchPullRequests author repoowner reponame start_dt end_dt
          (some page :: none :: rest) = []) := by
  intro author repoowner reponame start_dt end_dt prs rest page
  refine ⟨rfl, fun h => ?_⟩
  simp [fetchPullRequests, fetchLoop, h]

/-- Witness for C5: the first page collects a record and reports a next page,
the second page lacks data, and the final result is empty. -/
theorem fetchPullRequests_no_partial_results_witness :
    fetchPullRequests "preocts" "Preocts" "daystats" exStart exEnd
        [some ⟨none, false, [exNodeIn]⟩] = [toRecord "daystats" exNodeIn] ∧
    (processPage "preocts" "daystats" exStart exEnd [] ⟨none, true, [exNodeIn]⟩).1 = true ∧
    fetchPullRequests "preocts" "Preocts" "daystats" exStart exEnd
        [some ⟨none, true, [exNodeIn]⟩, none] = [] := by
  refine ⟨rfl, rfl, ?_⟩
  exact (fetchPullRequests_no_partial_results "preocts" "Preocts" "daystats"
    exStart exEnd [] [] ⟨none, true, [exNodeIn]⟩).2 rfl

/-! ### C4 -/

theorem processNode_window (author reponame : String) (start_dt end_dt : DateTime)
    (st : Bool × List PullRequest) (n : Node)
    (h : ∀ r ∈ st.2, dtLt start_dt r.created_at = true ∧ dtLt r.created_at end_dt = true) :
    ∀ r ∈ (processNode author reponame start_dt end_dt st n).2,
      dtLt start_dt r.created_at = true ∧ dtLt r.created_at end_dt = true := by
  intro r hr
  dsimp [processNode] at hr
  cases ha : lowerStr n.authorLogin != lowerStr author with
  | true =>
    simp only [ha, if_true] at hr
    exact h r hr
  | false =>
    simp only [ha, Bool.false_eq_true, if_false] at hr
    cases hw : dtLt n.createdAt end_dt && dtLt start_dt n.createdAt with
    | false =>
      simp only [hw, Bool.not_false, if_true] at hr
      exact h r hr
    | true =>
      simp only [hw, Bool.not_true, Bool.false_eq_true, if_false] at hr
      rcases List.mem_append.mp hr with hin | hnew
      · exact h r hin
      · rcases List.mem_singleton.mp hnew with rfl
        have hw2 : dtLt n.createdAt end_dt = true ∧ dtLt start_dt n.createdAt = true := by
          simpa using hw
        exact ⟨hw2.2, hw2.1⟩

theorem foldl_processNode_window (author reponame : String) (start_dt end_dt : DateTime) :
    ∀ (nodes : List Node) (st : Bool × List PullRequest),
      (∀ r ∈ st.2, dtLt start_dt r.created_at = true ∧ dtLt r.created_at end_dt = true) →
      ∀ r ∈ (nodes.foldl (processNode author reponame start_dt end_dt) st).2,
        dtLt start_dt r.created_at = true ∧ dtLt r.created_at end_dt = true := by
  intro nodes
  induction nodes with
  | nil => intro st h; exact h
  | cons nd rest ih =>
    intro st h
    exact ih _ (processNode_window author reponame start_dt end_dt st nd h)

theorem fetchLoop_window (author reponame : String) (start_dt end_dt : DateTime) :
    ∀ (resps : List (Option PRPage)) (prs : List PullRequest),
      (∀ r ∈ prs, dtLt start_dt r.created_at = true ∧ dtLt r.created_at end_dt = true) →
      ∀ r ∈ fetchLoop author reponame start_dt end_dt prs resps,
        dtLt start_dt r.created_at = true ∧ dtLt r.created_at end_dt = true := by
  intro resps
  induction resps with
  | nil => intro prs h; exact h
  | cons p rest ih =>
    intro prs h
    cases p with
    | none => intro r hr; simp [fetchLoop] at hr
    | some page =>
      have hst : ∀ r ∈ (processPage author reponame start_dt end_dt prs page).2,
          dtLt start_dt r.created_at = true ∧ dtLt r.created_at end_dt = true :=
        foldl_processNode_window author reponame start_dt end_dt page.nodes
          (page.hasNextPage, prs) h
      dsimp [fetchLoop]
      split
      · exact ih _ hst
      · exact hst

/-- C4: every record the Pull Request Fetcher returns was created strictly
after the corrected window start and strictly before the corrected window end;
a node whose timestamp equals either boundary is never collected. -/
theorem fetchPullRequests_window_exclusive :
    ∀ (author repoowner reponame : String) (start_dt end_dt : DateTime)
      (resps : List (Option PRPage)) (r : PullRequest),
      r ∈ fetchPullRequests author repoowner reponame start_dt end_dt resps →
      dtLt start_dt r.created_at = true ∧ dtLt r.created_at end_dt = true := by
  intro author repoowner reponame start_dt end_dt resps r hr
  exact fetchLoop_window author reponame start_dt end_dt resps []
    (by intro x hx; simp at hx) r hr

/-- Witness for C4: a concrete collected record lies strictly inside the
window; also, nodes created exactly at the start and exactly at the end of the
window are dropped. -/
theorem fetchPullRequests_window_exclusive_witness :
    (toRecord "daystats" exNodeIn ∈ fetchPullRequests "preocts" "Preocts" "daystats"
        exStart exEnd [some ⟨none, false, [exNodeIn]⟩] ∧
      dtLt exStart (toRecord "daystats" exNodeIn).created_at = true ∧
      dtLt (toRecord "daystats" exNodeIn).created_at exEnd = true) ∧
    fetchPullRequests "preocts" "Preocts" "daystats" exStart exEnd
        [some ⟨none, false,
          [{ exNodeIn with createdAt := exStart }, { exNodeIn with createdAt := exEnd }]⟩] = [] := by
  have hmem : toRecord "daystats" exNodeIn ∈ fetchPullRequests "preocts" "Preocts" "daystats"
      exStart exEnd [some ⟨none, false, [exNodeIn]⟩] := by decide
  refine ⟨⟨hmem, ?_⟩, by rfl⟩
  exact fetchPullRequests_window_exclusive "preocts" "Preocts" "daystats"
    exStart exEnd [some ⟨none, false, [exNodeIn]⟩] (toRecord "daystats" exNodeIn) hmem

/-! ### C9 -/

theorem processNode_author_congr (a1 a2 reponame : String) (start_dt end_dt : DateTime)
    (h : lowerStr a1 = lowerStr a2) (st : Bool × List PullRequest) (n : Node) :
    processNode a1 reponame start_dt end_dt st n = processNode a2 reponame start_dt end_dt st n := by
  simp only [processNode, h]

theorem fetchLoop_author_congr (a1 a2 reponame : String) (start_dt end_dt : DateTime)
    (h : lowerStr a1 = lowerStr a2) :
    ∀ (resps : List (Option PRPage)) (prs : List PullRequest),
      fetchLoop a1 reponame start_dt end_dt prs resps =
        fetchLoop a2 reponame start_dt end_dt prs resps := by
  have hfun : processNode a1 reponame start_dt end_dt = processNode a2 reponame start_dt end_dt := by
    funext st n
    exact processNode_author_congr a1 a2 reponame start_dt end_dt h st n
  intro resps
  induction resps with
  | nil => intro prs; rfl
  | cons p rest ih =>
    intro prs
    cases p with
    | none => rfl
    | some page =>
      dsimp [fetchLoop, processPage]
      rw [hfun]
      split
      · exact ih _
      · rfl

/-- C9: author filtering is case-insensitive — the fetch result is invariant
under case changes of the queried author; a node whose author does not
case-insensitively match is skipped without touching the continuation signal
or the collected records; and a node authored by "Preocts", in the window, is
collected when the queried author is "preocts". -/
theorem fetchPullRequests_author_case_insensitive :
    (∀ (a1 a2 repoowner reponame : String) (start_dt end_dt : DateTime)
        (resps : List (Option PRPage)),
      lowerStr a1 = lowerStr a2 →
      fetchPullRequests a1 repoowner reponame start_dt end_dt resps =
        fetchPullRequests a2 repoowner reponame start_dt end_dt resps) ∧
    (∀ (author reponame : String) (start_dt end_dt : DateTime)
        (st : Bool × List PullRequest) (n : Node),
      lowerStr n.authorLogin ≠ lowerStr author →
      processNode author reponame start_dt end_dt st n = st) ∧
    (∀ (reponame : String) (start_dt end_dt : DateTime) (b : Bool)
        (prs : List PullRequest) (n : Node),
      n.authorLogin = "Preocts" →
      (dtLt n.createdAt end_dt && dtLt start_dt n.createdAt) = true →
      processNode "preocts" reponame start_dt end_dt (b, prs) n =
        (b, prs ++ [toRecord reponame n])) := by
  refine ⟨?_, ?_, ?_⟩
  · intro a1 a2 repoowner reponame start_dt end_dt resps h
    exact fetchLoop_author_congr a1 a2 reponame start_dt end_dt h resps []
  · intro author reponame start_dt end_dt st n h
    simp [processNode, h]
  · intro reponame start_dt end_dt b prs n hauthor hw
    have hlow : lowerStr n.authorLogin = lowerStr "preocts" := by
      rw [hauthor]; decide
    simp [processNode, hlow, hw]

/-- Witness for C9 at concrete inputs: querying "Preocts" and "preocts" agree
on a mixed page; a non-matching node leaves the loop state unchanged; the
upper-case-authored in-window node is collected under the lower-case query. -/
theorem fetchPullRequests_author_case_insensitive_witness :
    fetchPullRequests "Preocts" "Preocts" "daystats" exStart exEnd
        [some ⟨none, false, [exNodeIn, exNodeOther]⟩] =
      fetchPullRequests "preocts" "Preocts" "daystats" exStart exEnd
        [some ⟨none, false, [exNodeIn, exNodeOther]⟩] ∧
    processNode "preocts" "daystats" exStart exEnd (true, []) exNodeOther = (true, []) ∧
    processNode "preocts" "daystats" exStart exEnd (true, []) exNodeIn =
      (true, [toRecord "daystats" exNodeIn]) := by
  refine ⟨?_, ?_, ?_⟩
  · exact fetchPullRequests_author_case_insensitive.1 "Preocts" "preocts" "Preocts" "daystats"
      exStart exEnd [some ⟨none, false, [exNodeIn, exNodeOther]⟩] (by decide)
  · exact fetchPullRequests_author_case_insensitive.2.1 "preocts" "daystats" exStart exEnd
      (true, []) exNodeOther (by decide)
  · exact fetchPullRequests_author_case_insensitive.2.2 "daystats" exStart exEnd
      true [] exNodeIn rfl (by decide)

/-! ### C1 -/

theorem foldl_processNode_signal (author reponame : String) (start_dt end_dt : DateTime) :
    ∀ (nodes : List Node) (st : Bool × List PullRequest),
      (nodes.foldl (processNode author reponame start_dt end_dt) st).1 =
        match specLastSignalNode author start_dt end_dt nodes with
        | some n => dtLt start_dt n.createdAt
        | none => st.1 := by
  intro nodes
  induction nodes with
  | nil => intro st; rfl
  | cons nd rest ih =>
    intro st
    rw [List.foldl_cons, ih]
    cases hlast : specLastSignalNode author start_dt end_dt rest with
    | some x => simp [specLastSignalNode, hlast]
    | none =>
      simp only [specLastSignalNode, hlast]
      cases ha : lowerStr nd.authorLogin != lowerStr author with
      | true =>
        have hsig : specSignalNode author start_dt end_dt nd = false := by
          simp only [specSignalNode]
          simp only [bne_iff_ne, ne_eq] at ha
          simp [ha]
        simp [processNode, ha, hsig]
      | false =>
        have hbeq : (lowerStr nd.authorLogin == lowerStr author) = true := by
          simpa using ha
        cases hw : dtLt nd.createdAt end_dt && dtLt start_dt nd.createdAt with
        | false =>
          have hsig : specSignalNode author start_dt end_dt nd = true := by
            simp [specSignalNode, hbeq, hw]
          simp [processNode, ha, hw, hsig]
        | true =>
          have hsig : specSignalNode author start_dt end_dt nd = false := by
            simp [specSignalNode, hbeq, hw]
          simp [processNode, ha, hw, hsig]

/-- Counterexample for C1 as stated: the first page reports no next page, yet
its newer-than-window node re-arms the continuation signal, so the fetch
consumes a second page — whose in-window record appears in the output. -/
theorem fetchPullRequests_page_after_last_counterexample :
    (PRPage.mk none false [exNodeNew]).hasNextPage = false ∧
    fetchPullRequests "preocts" "Preocts" "daystats" exStart exEnd
        [some ⟨none, false, [exNodeNew]⟩, some ⟨none, false, [exNodeIn]⟩] =
      [toRecord "daystats" exNodeIn] := by
  exact ⟨rfl, by rfl⟩

/-- C1 (amended): after each data-carrying page, another page is fetched iff
the continuation signal computed on that page is true; the signal starts as
the server's has-next-page report and is overwritten, for each author-matching
out-of-window node, by (created_at > window start), the last such node
deciding; the server report alone decides only when no such node exists, and
it is overridden — not conjoined — otherwise. -/
theorem fetchPullRequests_paging_signal :
    (∀ (author reponame : String) (start_dt end_dt : DateTime)
        (prs : List PullRequest) (page : PRPage) (rest : List (Option PRPage)),
      fetchLoop author reponame start_dt end_dt prs (some page :: rest) =
        (if (processPage author reponame start_dt end_dt prs page).1 then
          fetchLoop author reponame start_dt end_dt
            (processPage author reponame start_dt end_dt prs page).2 rest
        else (processPage author reponame start_dt end_dt prs page).2)) ∧
    (∀ (author reponame : String) (start_dt end_dt : DateTime)
        (prs : List PullRequest) (page : PRPage),
      (processPage author reponame start_dt end_dt prs page).1 =
        match specLastSignalNode author start_dt end_dt page.nodes with
        | some n => dtLt start_dt n.createdAt
        | none => page.hasNextPage) := by
  refine ⟨?_, ?_⟩
  · intro author reponame start_dt end_dt prs page rest
    rfl
  · intro author reponame start_dt end_dt prs page
    exact foldl_processNode_signal author reponame start_dt end_dt page.nodes
      (page.hasNextPage, prs)

/-! ### C8 -/

theorem foldl_insert_entryRepo :
    ∀ (l : List PREntry) (acc : Finset Repo),
      l.foldl (fun s pr => insert (entryRepo pr) s) acc =
        acc ∪ (l.map entryRepo).toFinset := by
  intro l
  induction l with
  | nil => intro acc; simp
  | cons epr rest ih =>
    intro acc
    rw [List.foldl_cons, ih]
    simp only [List.map_cons, List.toFinset_cons]
    rw [Finset.insert_union, Finset.union_insert]

/-- C8: a contributions response whose pull-request-contribution entries all
reference one (owner, name) pair yields a one-element repository set however
many entries there are; membership is decided by exact (case-sensitive)
equality of the owner and name strings. -/
theorem fetchContributions_dedup (post : ContribQuery → Option ContribData)
    (login : String) (start_dt end_dt : DateTime) (c : ContribData) (r : Repo)
    (hpost : post (createContribQuery login (start_dt.isoformat ++ "Z")
      (end_dt.isoformat ++ "Z")) = some c)
    (hne : c.pullRequestContributionsByRepository ≠ [])
    (hall : ∀ epr ∈ c.pullRequestContributionsByRepository, entryRepo epr = r) :
    (fetchContributions post login start_dt end_dt).pr_repos = {r} ∧
    (fetchContributions post login start_dt end_dt).pr_repos.card = 1 ∧
    (∀ x : Repo, x ∈ (fetchContributions post login start_dt end_dt).pr_repos ↔ x = r) ∧
    (∀ o1 n1 o2 n2 : String, Repo.mk o1 n1 = Repo.mk o2 n2 ↔ o1 = o2 ∧ n1 = n2) := by
  have hset : (fetchContributions post login start_dt end_dt).pr_repos = {r} := by
    simp only [fetchContributions, hpost]
    rw [foldl_insert_entryRepo]
    rw [Finset.empty_union]
    ext x
    simp only [List.mem_toFinset, List.mem_map, Finset.mem_singleton]
    constructor
    · rintro ⟨epr, hmem, rfl⟩
      exact hall epr hmem
    · rintro rfl
      rcases List.exists_mem_of_ne_nil _ hne with ⟨epr, hmem⟩
      exact ⟨epr, hmem, hall epr hmem⟩
  refine ⟨hset, ?_, ?_, ?_⟩
  · rw [hset]; exact Finset.card_singleton r
  · intro x; rw [hset]; exact Finset.mem_singleton
  · intro o1 n1 o2 n2; simp [Repo.mk.injEq]

/-- Witness for C8: three entries, one distinct pair, set of size one; and the
pair comparison distinguishes letter case. -/
theorem fetchContributions_dedup_witness :
    (fetchContributions
        (fun _ => some ⟨5, 1, 2, 0,
          [⟨"Preocts", "daystats"⟩, ⟨"Preocts", "daystats"⟩, ⟨"Preocts", "daystats"⟩]⟩)
        "preocts" exStart exEnd).pr_repos = {Repo.mk "Preocts" "daystats"} ∧
    (fetchContributions
        (fun _ => some ⟨5, 1, 2, 0,
          [⟨"Preocts", "daystats"⟩, ⟨"Preocts", "daystats"⟩, ⟨"Preocts", "daystats"⟩]⟩)
        "preocts" exStart exEnd).pr_repos.card = 1 ∧
    ¬ Repo.mk "Preocts" "daystats" = Repo.mk "preocts" "daystats" := by
  have h := fetchContributions_dedup
    (fun _ => some ⟨5, 1, 2, 0,
      [⟨"Preocts", "daystats"⟩, ⟨"Preocts", "daystats"⟩, ⟨"Preocts", "daystats"⟩]⟩)
    "preocts" exStart exEnd
    ⟨5, 1, 2, 0, [⟨"Preocts", "daystats"⟩, ⟨"Preocts", "daystats"⟩, ⟨"Preocts", "daystats"⟩]⟩
    (Repo.mk "Preocts" "daystats") rfl (by simp) (by decide)
  exact ⟨h.1, h.2.1, by decide⟩

/-! ### C2 -/

/-- Counterexample for C2 as stated: `now` is valid (March 31), the requested
triple — current year, month 2, day 15 — is a valid calendar date, yet the
Window Builder fails, because `replace(month=2)` is applied before the day is
lowered and validates the intermediate February 31. -/
theorem buildBookendTimes_valid_triple_counterexample :
    isValidDateTime ⟨2024, 3, 31, 10, 0, 0, 0⟩ = true ∧
    isValidDate 2024 2 15 = true ∧
    buildBookendTimes ⟨2024, 3, 31, 10, 0, 0, 0⟩ none (some 2) (some 15) =
      .error .invalidDate := by
  exact ⟨by decide, by decide, by rfl⟩

/-- C2 (amended): the Window Builder succeeds — returning 00:00:00.000 and
23:59:59.000 bookends of the target date, with only the truthy fields
overriding the corresponding fields of `now` — provided every intermediate
date reached by the successive year, month, day replacements is itself valid,
not merely the final triple. -/
theorem buildBookendTimes_stepwise_ok (now : DateTime) (year month day : Option Int)
    (h1 : isValidDateTime
      { now with year := (if truthy year then intVal year else now.year) } = true)
    (h2 : isValidDateTime
      { now with year := (if truthy year then intVal year else now.year),
                 month := (if truthy month then intVal month else now.month) } = true)
    (h3 : isValidDateTime
      { now with year := (if truthy year then intVal year else now.year),
                 month := (if truthy month then intVal month else now.month),
                 day := (if truthy day then intVal day else now.day) } = true) :
    buildBookendTimes now year month day = .ok
      (⟨(if truthy year then intVal year else now.year),
        (if truthy month then intVal month else now.month),
        (if truthy day then intVal day else now.day), 0, 0, 0, 0⟩,
       ⟨(if truthy year then intVal year else now.year),
        (if truthy month then intVal month else now.month),
        (if truthy day then intVal day else now.day), 23, 59, 59, 0⟩) := by
  have e1 : (if truthy year then tryMk (withYear now (intVal year)) else Except.ok now) =
      Except.ok ({ now with
        year := (if truthy year then intVal year else now.year) } : DateTime) := by
    cases ty : truthy year with
    | true =>
      simp only [ty, if_true]
      have h1w := h1
      simp only [ty, if_true] at h1w
      exact tryMk_ok_of_valid _ h1w
    | false =>
      rfl
  have e2 : (if truthy month then
        tryMk (withMonth ({ now with
          year := (if truthy year then intVal year else now.year) } : DateTime) (intVal month))
      else Except.ok ({ now with
        year := (if truthy year then intVal year else now.year) } : DateTime)) =
      Except.ok ({ now with
        year := (if truthy year then intVal year else now.year),
        month := (if truthy month then intVal month else now.month) } : DateTime) := by
    cases tm : truthy month with
    | true =>
      simp only [tm, if_true]
      have h2w := h2
      simp only [tm, if_true] at h2w
      exact tryMk_ok_of_valid _ h2w
    | false =>
      rfl
  have e3 : (if truthy day then
        tryMk (withDay ({ now with
          year := (if truthy year then intVal year else now.year),
          month := (if truthy month then intVal month else now.month) } : DateTime) (intVal day))
      else Except.ok ({ now with
        year := (if truthy year then intVal year else now.year),
        month := (if truthy month then intVal month else now.month) } : DateTime)) =
      Except.ok ({ now with
        year := (if truthy year then intVal year else now.year),
        month := (if truthy month then intVal month else now.month),
        day := (if truthy day then intVal day else now.day) } : DateTime) := by
    cases td : truthy day with
    | true =>
      simp only [td, if_true]
      have h3w := h3
      simp only [td, if_true] at h3w
      exact tryMk_ok_of_valid _ h3w
    | false =>
      rfl
  have e4 := tryMk_ok_of_valid _
    (isValidDateTime_setTime _ 0 0 0 (by omega) (by omega) (by omega) h3)
  have e5 := tryMk_ok_of_valid _
    (isValidDateTime_setTime _ 23 59 59 (by omega) (by omega) (by omega) h3)
  unfold buildBookendTimes
  simp only [e1, e2, e3, e4, e5]

/-- Witness for C2 at a concrete valid request with all fields supplied. -/
theorem buildBookendTimes_stepwise_ok_witness :
    buildBookendTimes ⟨2023, 9, 15, 12, 30, 45, 123⟩ (some 1998) (some 12) (some 31) =
      .ok (⟨1998, 12, 31, 0, 0, 0, 0⟩, ⟨1998, 12, 31, 23, 59, 59, 0⟩) :=
  buildBookendTimes_stepwise_ok ⟨2023, 9, 15, 12, 30, 45, 123⟩
    (some 1998) (some 12) (some 31) (by decide) (by decide) (by decide)

/-! ### C7 -/

theorem step_ok_eq {cond : Bool} {upd base res : DateTime}
    (h : (if cond then tryMk upd else Except.ok base) = Except.ok res) :
    res = if cond then upd else base := by
  cases cond with
  | true =>
    simp only [if_true] at h ⊢
    exact (tryMk_eq_ok _ _ h).1
  | false =>
    exact (Except.ok.inj h).symm

theorem buildBookendTimes_ok_shape (now : DateTime) (year month day : Option Int)
    (s e : DateTime) (h : buildBookendTimes now year month day = .ok (s, e)) :
    isValidDateTime s = true ∧
    s.year = (if truthy year then intVal year else now.year) ∧
    s.month = (if truthy month then intVal month else now.month) ∧
    s.day = (if truthy day then intVal day else now.day) := by
  unfold buildBookendTimes at h
  cases hc1 : (if truthy year then tryMk (withYear now (intVal year)) else Except.ok now) with
  | error err => simp [hc1] at h
  | ok n1 =>
    simp only [hc1] at h
    cases hc2 : (if truthy month then tryMk (withMonth n1 (intVal month)) else Except.ok n1) with
    | error err => simp [hc2] at h
    | ok n2 =>
      simp only [hc2] at h
      cases hc3 : (if truthy day then tryMk (withDay n2 (intVal day)) else Except.ok n2) with
      | error err => simp [hc3] at h
      | ok n3 =>
        simp only [hc3] at h
        cases hc4 : tryMk { n3 with hour := 0, minute := 0, second := 0, microsecond := 0 } with
        | error err => simp [hc4] at h
        | ok s0 =>
          simp only [hc4] at h
          cases hc5 : tryMk { n3 with hour := 23, minute := 59, second := 59, microsecond := 0 } with
          | error err => simp [hc5] at h
          | ok e0 =>
            simp only [hc5] at h
            have hse : s0 = s ∧ e0 = e := by simpa using h
            rcases tryMk_eq_ok _ _ hc4 with ⟨hs0, hvalid⟩
            have hn1 := step_ok_eq hc1
            have hn2 := step_ok_eq hc2
            have hn3 := step_ok_eq hc3
            subst hn1 hn2 hn3
            rcases hse with ⟨rfl, rfl⟩
            subst hs0
            refine ⟨hvalid, ?_, ?_, ?_⟩ <;>
              cases ty : truthy year <;> cases tm : truthy month <;> cases td : truthy day <;>
                simp [withYear, withMonth, withDay]

/-- C7: a requested combination that is not an existing calendar date makes
the Window Builder fail with the domain invalid-date error, and this is the
only error that aborts the pipeline: the Orchestrator fails exactly when the
Window Builder does, never because of fetch-phase responses. -/
theorem invalidDate_only_hard_error (now : DateTime) (year month day : Option Int) :
    (isValidDate (if truthy year then intVal year else now.year)
        (if truthy month then intVal month else now.month)
        (if truthy day then intVal day else now.day) = false →
      ∃ err, buildBookendTimes now year month day = .error err) ∧
    (∀ (post : ContribQuery → Option ContribData) (prResps : Repo → List (Option PRPage))
        (repoOrder : Finset Repo → List Repo) (login : String) (offH : Int),
      (∃ err, getStats post prResps repoOrder login offH now year month day = .error err) ↔
        (∃ err, buildBookendTimes now year month day = .error err)) := by
  constructor
  · intro hbad
    cases hb : buildBookendTimes now year month day with
    | error err => exact ⟨err, rfl⟩
    | ok p =>
      exfalso
      rcases buildBookendTimes_ok_shape now year month day p.1 p.2
        (by rw [hb]) with ⟨hvalid, hy, hm, hd⟩
      have := isValidDate_of_isValidDateTime _ hvalid
      rw [hy, hm, hd] at this
      rw [this] at hbad
      exact Bool.true_eq_false.mp hbad
  · intro post prResps repoOrder login offH
    cases hb : buildBookendTimes now year month day with
    | error err =>
      constructor
      · intro _; exact ⟨err, rfl⟩
      · intro _
        refine ⟨err, ?_⟩
        unfold getStats
        rw [hb]
    | ok p =>
      constructor
      · rintro ⟨err, habs⟩
        unfold getStats at habs
        rw [hb] at habs
        obtain ⟨p1, p2⟩ := p
        simp at habs
      · rintro ⟨err, habs⟩
        simp at habs

/-- Witness for C7: February 30 does not exist, the Window Builder errors, and
the error-abort equivalence instantiated at a concrete orchestration. -/
theorem invalidDate_only_hard_error_witness :
    (∃ err, buildBookendTimes ⟨2024, 1, 15, 8, 0, 0, 0⟩ none (some 2) (some 30) = .error err) ∧
    ((∃ err, getStats (fun _ => none) (fun _ => []) Finset.toList "preocts" 5
        ⟨2024, 1, 15, 8, 0, 0, 0⟩ none (some 2) (some 30) = .error err) ↔
      (∃ err, buildBookendTimes ⟨2024, 1, 15, 8, 0, 0, 0⟩ none (some 2) (some 30) = .error err)) := by
  have h := invalidDate_only_hard_error ⟨2024, 1, 15, 8, 0, 0, 0⟩ none (some 2) (some 30)
  exact ⟨h.1 (by decide), h.2 (fun _ => none) (fun _ => []) Finset.toList "preocts" 5⟩

/-! ### C3 -/

theorem foldl_append_eq_flatten {α β : Type} :
    ∀ (l : List α) (f : α → List β) (init : List β),
      l.foldl (fun acc x => acc ++ f x) init = init ++ (l.map f).flatten := by
  intro l f
  induction l with
  | nil => intro init; simp
  | cons x rest ih =>
    intro init
    simp only [List.foldl_cons, List.map_cons, List.flatten_cons, ih, List.append_assoc]

/-- C3: the Orchestrator queries contributions with the unmodified local
window, then fetches each listed repository's pull requests with the window
shifted by the machine's UTC offset on both ends, and returns the summary
together with the per-repository results concatenated in repository-iteration
order. -/
theorem getStats_orchestration
    (post : ContribQuery → Option ContribData) (prResps : Repo → List (Option PRPage))
    (repoOrder : Finset Repo → List Repo) (login : String) (offH : Int)
    (now : DateTime) (year month day : Option Int) (start_dt end_dt : DateTime)
    (h : buildBookendTimes now year month day = .ok (start_dt, end_dt)) :
    getStats post prResps repoOrder login offH now year month day =
      .ok (fetchContributions post login start_dt end_dt,
        ((repoOrder (fetchContributions post login start_dt end_dt).pr_repos).map fun repo =>
            fetchPullRequests login repo.owner repo.name
              (addHours start_dt offH) (addHours end_dt offH) (prResps repo)).flatten) := by
  unfold getStats
  rw [h]
  exact congrArg (fun l =>
      (Except.ok (fetchContributions post login start_dt end_dt, l) :
        Except InvalidDateError (Contributions × List PullRequest)))
    ((foldl_append_eq_flatten _ _ []).trans (List.nil_append _))

/-- Fixture contributions client for the orchestration witness. -/
def exPost : ContribQuery → Option ContribData :=
  fun _ => some ⟨5, 1, 2, 0, [⟨"Preocts", "daystats"⟩]⟩

/-- Fixture per-repository page streams for the orchestration witness. -/
def exPages : Repo → List (Option PRPage) :=
  fun _ => [some ⟨none, false, [exNodeIn]⟩]

/-- Witness for C3 at a concrete request whose window build succeeds. -/
theorem getStats_orchestration_witness :
    getStats exPost exPages Finset.toList "preocts" 5 ⟨2023, 9, 1, 12, 0, 0, 0⟩
        none none none =
      .ok (fetchContributions exPost "preocts" ⟨2023, 9, 1, 0, 0, 0, 0⟩
          ⟨2023, 9, 1, 23, 59, 59, 0⟩,
        ((Finset.toList (fetchContributions exPost "preocts" ⟨2023, 9, 1, 0, 0, 0, 0⟩
              ⟨2023, 9, 1, 23, 59, 59, 0⟩).pr_repos).map fun repo =>
            fetchPullRequests "preocts" repo.owner repo.name
              (addHours ⟨2023, 9, 1, 0, 0, 0, 0⟩ 5) (addHours ⟨2023, 9, 1, 23, 59, 59, 0⟩ 5)
              (exPages repo)).flatten) :=
  getStats_orchestration exPost exPages Finset.toList "preocts" 5
    ⟨2023, 9, 1, 12, 0, 0, 0⟩ none none none
    ⟨2023, 9, 1, 0, 0, 0, 0⟩ ⟨2023, 9, 1, 23, 59, 59, 0⟩ (by rfl)

end Daystats
